import Mathlib

/-!
Shallow embedding of the RGBPP indexing pipeline (`src/rgbpp.rs`) of
`unistate-ckb`, together with proofs of the specification's claims about it.

Modelling conventions:
* Byte strings are `List Nat` (each element a byte value).
* The molecule-generated binary codec (`crate::schemas::{blockchain, rgbpp}`),
  the fetcher and the SeaORM entity modules for `rgbpp_locks`/`rgbpp_unlocks`
  are not part of `src/`; the specification treats the binary structure codec,
  the output resolver and the relational store as external collaborators, so
  they are modelled abstractly or from the specification's words (each such
  definition carries a `Modelled from the spec:` doc comment).
* The relational store is a pair of insertion-ordered row lists; every
  database interaction additionally emits an `Event` so that the temporal
  claims (ordering of persist calls and of the resolver invocation) become
  statements about the emitted trace.
* `rayon`'s `par_iter().filter_map(...).collect::<Vec<_>>()` preserves the
  order of the underlying container, so it is modelled by `List.filterMap`.
* Fallible operations return their result together with an `Option String`
  error component; the store component survives an error, matching the fact
  that database writes issued before the failure are not rolled back.
-/

/-- Byte strings (`Vec<u8>` / `Bytes`): a list of byte values. -/
abbrev ByteStr := List Nat

/-- The RGBPP lock structure (`schemas::rgbpp::RGBPPLock`).
Modelled from the spec: the molecule schema is not under `src/`; its two
fields are a 4-byte `out_index` ("little-endian 32-bit unsigned integer
decoded from a structure field") and a 32-byte `btc_txid`.  Field accessors
`out_index().raw_data()` and `btc_txid().as_bytes()` return exactly these
field bytes, so the fields hold the raw bytes directly. -/
structure RGBPPLock where
  out_index : ByteStr
  btc_txid : ByteStr
deriving DecidableEq

/-- `schemas::rgbpp::ExtraCommitmentData`: two single-byte counters.
Modelled from the spec: "`input_len`, `output_len`: single bytes". -/
structure ExtraCommitmentData where
  input_len : Nat
  output_len : Nat
deriving DecidableEq

/-- The RGBPP unlock structure (`schemas::rgbpp::RGBPPUnlock`).
Modelled from the spec: a 2-byte little-endian `version`, the extra
commitment data, and two "variable-length opaque byte blobs" `btc_tx` and
`btc_tx_proof` (held as the bytes the upsert stores). -/
structure RGBPPUnlock where
  version : ByteStr
  extra_data : ExtraCommitmentData
  btc_tx : ByteStr
  btc_tx_proof : ByteStr
deriving DecidableEq

/-- `schemas::blockchain::WitnessArgs` after decoding: only its optional
`lock` sub-field is consumed by the indexer.  Modelled from the spec:
"extract its 'lock' sub-field; if present, attempt to decode that
sub-field's raw payload as the unlock structure" — the `Option` holds the
raw payload bytes (`lock_witness.raw_data()`). -/
structure WitnessArgs where
  lock : Option ByteStr
deriving DecidableEq

/-- A lock script; only its argument bytes (`output.lock.args`) are read. -/
structure Script where
  args : ByteStr
deriving DecidableEq

/-- A transaction output cell: carries its lock script. -/
structure CellOutput where
  lock : Script
deriving DecidableEq

/-- A transaction input: a reference to a previous output
(previous transaction hash + output index), opaque to the indexer and
passed whole to the output resolver. -/
structure CellInput where
  previous_tx_hash : ByteStr
  previous_index : Nat
deriving DecidableEq

/-- `ckb_jsonrpc_types::TransactionView`, flattened: the transaction hash
together with the `inner` fields the indexer reads (witnesses, inputs,
outputs). -/
structure TransactionView where
  hash : ByteStr
  witnesses : List ByteStr
  inputs : List CellInput
  outputs : List CellOutput
deriving DecidableEq

/-- The external binary structure codec and hash.
Modelled from the spec: "Binary structure codec (external) — provides
`try_decode::<T>(bytes) -> Option<T>` for each fixed on-chain binary layout
(witness wrapper, protocol lock layout, protocol unlock layout)", together
with the entity serializers `as_bytes` and the 32-byte digest
(`ckb_hash::blake2b_256`, an external crate).  All pipeline definitions are
parametrised by a `Codec`. -/
structure Codec where
  lockAsBytes : RGBPPLock → ByteStr
  unlockAsBytes : RGBPPUnlock → ByteStr
  witnessArgsFromSlice : ByteStr → Option WitnessArgs
  unlockFromSlice : ByteStr → Option RGBPPUnlock
  lockFromSlice : ByteStr → Option RGBPPLock
  blake2b_256 : ByteStr → ByteStr

/-- `Buf::get_u32_le`: little-endian 32-bit read of the first four bytes. -/
def get_u32_le (b : ByteStr) : Nat :=
  b.getD 0 0 + 256 * b.getD 1 0 + 65536 * b.getD 2 0 + 16777216 * b.getD 3 0

/-- `Buf::get_u16_le`: little-endian 16-bit read of the first two bytes. -/
def get_u16_le (b : ByteStr) : Nat :=
  b.getD 0 0 + 256 * b.getD 1 0

/-- Rust's `as i32` cast of a `u32` value: two's-complement
reinterpretation (faithful for `n < 2^32`). -/
def as_i32 (n : Nat) : Int :=
  if n < 2147483648 then (n : Int) else (n : Int) - 4294967296

/-- Rust's `as i16` cast of a `u16` value: two's-complement
reinterpretation (faithful for `n < 2^16`). -/
def as_i16 (n : Nat) : Int :=
  if n < 32768 then (n : Int) else (n : Int) - 65536

/-- `RGBPPLock::lock_id` (`src/rgbpp.rs`): the identifier of a lock
structure.  The source computes
`blockchain::Bytes::new_unchecked(self.as_bytes()).raw_data().to_vec()`;
the generated `schemas::blockchain` module is not under `src/`, so this
composite is Modelled from the spec: "`lock_id`: raw encoded bytes of the
lock structure (identity = structural equality, not a hash)". -/
def RGBPPLock.lock_id (c : Codec) (l : RGBPPLock) : ByteStr :=
  c.lockAsBytes l

/-- `RGBPPUnlock::unlock_id` (`src/rgbpp.rs`):
`ckb_hash::blake2b_256(self.as_bytes()).to_vec()` — the 32-byte digest of
the full encoded unlock structure. -/
def RGBPPUnlock.unlock_id (c : Codec) (u : RGBPPUnlock) : ByteStr :=
  c.blake2b_256 (c.unlockAsBytes u)

/-- A row of the `rgbpp_locks` table (`entity::rgbpp_locks::ActiveModel`
as filled in by `upsert_rgbpp_lock`). -/
structure LockRow where
  lock_id : ByteStr
  out_index : Int
  btc_txid : ByteStr
  tx : ByteStr
deriving DecidableEq

/-- A row of the `rgbpp_unlocks` table (`entity::rgbpp_unlocks::ActiveModel`
as filled in by `upsert_rgbpp_unlock`). -/
structure UnlockRow where
  unlock_id : ByteStr
  version : Int
  input_len : Int
  output_len : Int
  btc_tx : ByteStr
  btc_tx_proof : ByteStr
  tx : ByteStr
deriving DecidableEq

/-- The relational store: the two tables, each as an insertion-ordered
list of rows. -/
structure Store where
  locks : List LockRow
  unlocks : List UnlockRow
deriving DecidableEq

/-- The empty store. -/
def emptyStore : Store := ⟨[], []⟩

/-- One observable database / resolver interaction, recorded in order of
occurrence: existence checks (`find_by_id`), row insertions, and the
output resolver call (`fetcher.get_outputs`). -/
inductive Event where
  | findLock (id : ByteStr)
  | insertLock (row : LockRow)
  | findUnlock (id : ByteStr)
  | insertUnlock (row : UnlockRow)
  | resolve (inputs : List CellInput)
deriving DecidableEq

/-- Events touching the `rgbpp_unlocks` table. -/
def Event.isUnlockEvent : Event → Bool
  | .findUnlock _ => true
  | .insertUnlock _ => true
  | _ => false

/-- Events touching the `rgbpp_locks` table. -/
def Event.isLockEvent : Event → Bool
  | .findLock _ => true
  | .insertLock _ => true
  | _ => false

/-- The output resolver invocation event. -/
def Event.isResolve : Event → Bool
  | .resolve _ => true
  | _ => false

/-- The `rgbpp_locks::ActiveModel` literal built by `upsert_rgbpp_lock`:
`out_index` is `get_u32_le(...) as i32`, `btc_txid` is the lock's embedded
txid byte-reversed (`txid.reverse()`), `tx` the observing transaction
hash. -/
def mkLockRow (c : Codec) (rgbpp_lock : RGBPPLock) (tx : ByteStr) : LockRow :=
  { lock_id := rgbpp_lock.lock_id c
    out_index := as_i32 (get_u32_le rgbpp_lock.out_index)
    btc_txid := rgbpp_lock.btc_txid.reverse
    tx := tx }

/-- The `rgbpp_unlocks::ActiveModel` literal built by
`upsert_rgbpp_unlock`: `version` is `get_u16_le(...) as i16`, the two
length bytes are widened to `i16`, and the two blobs are stored as-is
(no byte reversal). -/
def mkUnlockRow (c : Codec) (rgbpp_unlock : RGBPPUnlock) (tx : ByteStr) :
    UnlockRow :=
  { unlock_id := rgbpp_unlock.unlock_id c
    version := as_i16 (get_u16_le rgbpp_unlock.version)
    input_len := (rgbpp_unlock.extra_data.input_len : Int)
    output_len := (rgbpp_unlock.extra_data.output_len : Int)
    btc_tx := rgbpp_unlock.btc_tx
    btc_tx_proof := rgbpp_unlock.btc_tx_proof
    tx := tx }

/-- `upsert_rgbpp_lock` (`src/rgbpp.rs`): look the lock up by `lock_id`
(`find_by_id`); if a row exists, do nothing; if absent, insert
`mkLockRow`.  Returns the store and the emitted events. -/
def upsert_rgbpp_lock (c : Codec) (s : Store) (rgbpp_lock : RGBPPLock)
    (tx : ByteStr) : Store × List Event :=
  match s.locks.find? (fun r => r.lock_id == rgbpp_lock.lock_id c) with
  | some _ => (s, [Event.findLock (rgbpp_lock.lock_id c)])
  | none =>
    ({ s with locks := s.locks ++ [mkLockRow c rgbpp_lock tx] },
      [Event.findLock (rgbpp_lock.lock_id c),
       Event.insertLock (mkLockRow c rgbpp_lock tx)])

/-- `upsert_rgbpp_unlock` (`src/rgbpp.rs`): look the unlock up by
`unlock_id`; if a row exists, do nothing; if absent, insert
`mkUnlockRow`. -/
def upsert_rgbpp_unlock (c : Codec) (s : Store) (rgbpp_unlock : RGBPPUnlock)
    (tx : ByteStr) : Store × List Event :=
  match s.unlocks.find? (fun r => r.unlock_id == rgbpp_unlock.unlock_id c) with
  | some _ => (s, [Event.findUnlock (rgbpp_unlock.unlock_id c)])
  | none =>
    ({ s with unlocks := s.unlocks ++ [mkUnlockRow c rgbpp_unlock tx] },
      [Event.findUnlock (rgbpp_unlock.unlock_id c),
       Event.insertUnlock (mkUnlockRow c rgbpp_unlock tx)])

/-- The unlock extraction of `index_rgbpp_lock`: over the witnesses, first
`filter_map` decodes the witness wrapper, then a second `filter_map` takes
the optional `lock` sub-field and decodes its payload as an unlock
structure; decode failures are dropped silently at every stage. -/
def extract_unlocks (c : Codec) (witnesses : List ByteStr) :
    List RGBPPUnlock :=
  (witnesses.filterMap c.witnessArgsFromSlice).filterMap
    (fun witness_args =>
      witness_args.lock.bind (fun lock_witness => c.unlockFromSlice lock_witness))

/-- The lock extraction of `index_rgbpp_lock`: over a list of output
cells, decode each cell's lock-script argument bytes as a lock structure,
dropping failures. -/
def extract_locks (c : Codec) (outs : List CellOutput) : List RGBPPLock :=
  outs.filterMap (fun output => c.lockFromSlice output.lock.args)

/-- The `for unlock in rgbpp_unlocks { upsert_rgbpp_unlock(...).await? }`
loop: sequential upserts threading the store, concatenating the traces. -/
def upsert_unlocks (c : Codec) (tx : ByteStr) :
    Store → List RGBPPUnlock → Store × List Event
  | s, [] => (s, [])
  | s, u :: rest =>
    let r := upsert_rgbpp_unlock c s u tx
    let r2 := upsert_unlocks c tx r.1 rest
    (r2.1, r.2 ++ r2.2)

/-- The `for lock in locks { upsert_rgbpp_lock(...).await? }` loop. -/
def upsert_locks (c : Codec) (tx : ByteStr) :
    Store → List RGBPPLock → Store × List Event
  | s, [] => (s, [])
  | s, l :: rest =>
    let r := upsert_rgbpp_lock c s l tx
    let r2 := upsert_locks c tx r.1 rest
    (r2.1, r.2 ++ r2.2)

/-- The output resolver (`Fetcher::get_outputs`).  Modelled from the spec:
an external black-box async lookup `resolve(inputs) -> [Output]` that
"may fail"; a pure function to an `Except`. -/
abbrev Fetcher := List CellInput → Except String (List CellOutput)

/-- `index_rgbpp_lock` (`src/rgbpp.rs`): process one transaction.
1. Extract unlock structures from the witnesses and upsert each.
2. Call the output resolver once on all inputs; on error, stop with that
   error (the already-issued unlock upserts remain).
3. Decode the resolved pre-outputs and the transaction's own outputs,
   pool them (`[inputs, outputs].concat()`), and upsert each lock.
Returns the store, the event trace, and the error if any. -/
def index_rgbpp_lock (c : Codec) (fetcher : Fetcher) (s : Store)
    (tx : TransactionView) : Store × List Event × Option String :=
  let r1 := upsert_unlocks c tx.hash s (extract_unlocks c tx.witnesses)
  match fetcher tx.inputs with
  | .error e => (r1.1, r1.2 ++ [Event.resolve tx.inputs], some e)
  | .ok pre_outputs =>
    let locks := extract_locks c pre_outputs ++ extract_locks c tx.outputs
    let r2 := upsert_locks c tx.hash r1.1 locks
    (r2.1, r1.2 ++ Event.resolve tx.inputs :: r2.2, none)

/-- `RgbppIndexer::index` (`src/rgbpp.rs`): drain the intake stream,
processing each transaction to completion with `index_rgbpp_lock` before
pulling the next; the first error stops the pipeline and is returned.
The bounded intake channel is modelled by the list of transactions in
arrival order. -/
def RgbppIndexer.index (c : Codec) (fetcher : Fetcher) :
    Store → List TransactionView → Store × List Event × Option String
  | s, [] => (s, [], none)
  | s, t :: rest =>
    let r := index_rgbpp_lock c fetcher s t
    match r.2.2 with
    | some e => (r.1, r.2.1, some e)
    | none =>
      let r2 := RgbppIndexer.index c fetcher r.1 rest
      (r2.1, r.2.1 ++ r2.2.1, r2.2.2)

/-! ### Concrete codec, fetcher and transaction instances
Used to evaluate the pipeline on closed inputs. -/

/-- A codec whose decoders always succeed: every witness is a wrapper
whose `lock` sub-field is the witness itself, every payload decodes to an
unlock structure, every lock-script argument decodes to a lock
structure. -/
def decodeAllCodec : Codec where
  lockAsBytes := fun l => l.out_index ++ l.btc_txid
  unlockAsBytes := fun u => u.version ++ u.btc_tx ++ u.btc_tx_proof
  witnessArgsFromSlice := fun b => some ⟨some b⟩
  unlockFromSlice := fun b => some ⟨[1, 0], ⟨1, 1⟩, b, []⟩
  lockFromSlice := fun b => some ⟨b.take 4, b.drop 4⟩
  blake2b_256 := fun b => b ++ [0]

/-- A codec whose decode attempts all fail (every field is malformed) and
whose digest has a fixed 32-byte output. -/
def rejectAllCodec : Codec where
  lockAsBytes := fun l => l.out_index ++ l.btc_txid
  unlockAsBytes := fun u => u.version ++ u.btc_tx ++ u.btc_tx_proof
  witnessArgsFromSlice := fun _ => none
  unlockFromSlice := fun _ => none
  lockFromSlice := fun _ => none
  blake2b_256 := fun _ => List.replicate 32 0

/-- A resolver that always fails. -/
def failFetcher : Fetcher := fun _ => Except.error "resolver failed"

/-- A resolver that always resolves to an empty output list. -/
def emptyOkFetcher : Fetcher := fun _ => Except.ok []

/-- A transaction with one witness (decodable under `decodeAllCodec`),
no inputs and no outputs. -/
def unlockTx : TransactionView := ⟨[7], [[1]], [], []⟩

/-- A transaction with one witness, one input and one output. -/
def plainTx : TransactionView := ⟨[9], [[2]], [⟨[3], 0⟩], [⟨⟨[5]⟩⟩]⟩

/-- A lock structure whose `out_index` field holds the little-endian bytes
of `2^31`. -/
def wrapLock : RGBPPLock := ⟨[0, 0, 0, 128], [1, 2]⟩

/-- An unlock structure whose `version` field holds the little-endian
bytes of `2^15`. -/
def wrapUnlock : RGBPPUnlock := ⟨[0, 128], ⟨3, 4⟩, [5], [6]⟩

/-! ### Helper lemmas -/

/-- A lock upsert never touches the `rgbpp_unlocks` table. -/
theorem upsert_rgbpp_lock_unlocks (c : Codec) (s : Store) (l : RGBPPLock)
    (tx : ByteStr) : (upsert_rgbpp_lock c s l tx).1.unlocks = s.unlocks := by
  unfold upsert_rgbpp_lock
  split <;> rfl

/-- An unlock upsert never touches the `rgbpp_locks` table. -/
theorem upsert_rgbpp_unlock_locks (c : Codec) (s : Store) (u : RGBPPUnlock)
    (tx : ByteStr) : (upsert_rgbpp_unlock c s u tx).1.locks = s.locks := by
  unfold upsert_rgbpp_unlock
  split <;> rfl

/-- The unlock-persisting loop never touches the `rgbpp_locks` table. -/
theorem upsert_unlocks_locks (c : Codec) (tx : ByteStr)
    (us : List RGBPPUnlock) (s : Store) :
    (upsert_unlocks c tx s us).1.locks = s.locks := by
  induction us generalizing s with
  | nil => rfl
  | cons u rest ih =>
    simp only [upsert_unlocks]
    rw [ih]
    exact upsert_rgbpp_unlock_locks c s u tx

/-- Every event emitted by a lock upsert touches the lock table. -/
theorem upsert_rgbpp_lock_events (c : Codec) (s : Store) (l : RGBPPLock)
    (tx : ByteStr) :
    ∀ e ∈ (upsert_rgbpp_lock c s l tx).2, e.isLockEvent = true := by
  unfold upsert_rgbpp_lock
  split <;> simp [Event.isLockEvent]

/-- Every event emitted by an unlock upsert touches the unlock table. -/
theorem upsert_rgbpp_unlock_events (c : Codec) (s : Store) (u : RGBPPUnlock)
    (tx : ByteStr) :
    ∀ e ∈ (upsert_rgbpp_unlock c s u tx).2, e.isUnlockEvent = true := by
  unfold upsert_rgbpp_unlock
  split <;> simp [Event.isUnlockEvent]

/-- Every event emitted by the lock-persisting loop touches the lock
table. -/
theorem upsert_locks_events (c : Codec) (tx : ByteStr)
    (ls : List RGBPPLock) (s : Store) :
    ∀ e ∈ (upsert_locks c tx s ls).2, e.isLockEvent = true := by
  induction ls generalizing s with
  | nil => simp [upsert_locks]
  | cons l rest ih =>
    simp only [upsert_locks]
    intro e he
    rcases List.mem_append.mp he with h | h
    · exact upsert_rgbpp_lock_events c s l tx e h
    · exact ih _ e h

/-- Every event emitted by the unlock-persisting loop touches the unlock
table. -/
theorem upsert_unlocks_events (c : Codec) (tx : ByteStr)
    (us : List RGBPPUnlock) (s : Store) :
    ∀ e ∈ (upsert_unlocks c tx s us).2, e.isUnlockEvent = true := by
  induction us generalizing s with
  | nil => simp [upsert_unlocks]
  | cons u rest ih =>
    simp only [upsert_unlocks]
    intro e he
    rcases List.mem_append.mp he with h | h
    · exact upsert_rgbpp_unlock_events c s u tx e h
    · exact ih _ e h

/-- Lock-table events are not resolver invocations. -/
theorem lockEvent_not_resolve (e : Event) (h : e.isLockEvent = true) :
    e.isResolve = false := by
  cases e <;> simp_all [Event.isLockEvent, Event.isResolve]

/-- Unlock-table events are not resolver invocations. -/
theorem unlockEvent_not_resolve (e : Event) (h : e.isUnlockEvent = true) :
    e.isResolve = false := by
  cases e <;> simp_all [Event.isUnlockEvent, Event.isResolve]

/-- Persisting a concatenated lock list is persisting the first part,
then the second from the resulting store, with traces concatenated. -/
theorem upsert_locks_append (c : Codec) (tx : ByteStr)
    (l1 l2 : List RGBPPLock) (s : Store) :
    upsert_locks c tx s (l1 ++ l2) =
      ((upsert_locks c tx (upsert_locks c tx s l1).1 l2).1,
       (upsert_locks c tx s l1).2 ++
         (upsert_locks c tx (upsert_locks c tx s l1).1 l2).2) := by
  induction l1 generalizing s with
  | nil => simp [upsert_locks]
  | cons l rest ih =>
    simp only [List.cons_append, upsert_locks, List.append_eq]
    rw [ih]
    simp

/-- After a lock upsert, a row with the lock's identifier exists. -/
theorem upsert_rgbpp_lock_find (c : Codec) (s : Store) (l : RGBPPLock)
    (tx : ByteStr) :
    ((upsert_rgbpp_lock c s l tx).1.locks.find?
      (fun r => r.lock_id == l.lock_id c)).isSome = true := by
  unfold upsert_rgbpp_lock
  cases h : s.locks.find? (fun r => r.lock_id == l.lock_id c) with
  | some r => simp [h]
  | none => simp [h, List.find?_append, mkLockRow]

/-- After an unlock upsert, a row with the unlock's identifier exists. -/
theorem upsert_rgbpp_unlock_find (c : Codec) (s : Store) (u : RGBPPUnlock)
    (tx : ByteStr) :
    ((upsert_rgbpp_unlock c s u tx).1.unlocks.find?
      (fun r => r.unlock_id == u.unlock_id c)).isSome = true := by
  unfold upsert_rgbpp_unlock
  cases h : s.unlocks.find? (fun r => r.unlock_id == u.unlock_id c) with
  | some r => simp [h]
  | none => simp [h, List.find?_append, mkUnlockRow]

/-- A lock upsert whose identifier is already present is a no-op. -/
theorem upsert_rgbpp_lock_found (c : Codec) (s : Store) (l : RGBPPLock)
    (tx : ByteStr)
    (h : (s.locks.find? (fun r => r.lock_id == l.lock_id c)).isSome = true) :
    upsert_rgbpp_lock c s l tx = (s, [Event.findLock (l.lock_id c)]) := by
  unfold upsert_rgbpp_lock
  split
  · rfl
  · rename_i hf
    rw [hf] at h
    simp at h

/-- An unlock upsert whose identifier is already present is a no-op. -/
theorem upsert_rgbpp_unlock_found (c : Codec) (s : Store) (u : RGBPPUnlock)
    (tx : ByteStr)
    (h : (s.unlocks.find? (fun r => r.unlock_id == u.unlock_id c)).isSome
        = true) :
    upsert_rgbpp_unlock c s u tx = (s, [Event.findUnlock (u.unlock_id c)]) := by
  unfold upsert_rgbpp_unlock
  split
  · rfl
  · rename_i hf
    rw [hf] at h
    simp at h

/-- Bytes read out of a byte string stay below 256. -/
theorem getD_lt_256 (bs : ByteStr) (i : Nat) (h : ∀ b ∈ bs, b < 256) :
    bs.getD i 0 < 256 := by
  rw [List.getD_eq_getElem?_getD]
  cases hb : bs[i]? with
  | none => simp
  | some x =>
    simp only [Option.getD_some]
    exact h x (List.getElem?_mem hb)

/-- The little-endian 32-bit read of a byte string is below `2^32`. -/
theorem get_u32_le_lt (bs : ByteStr) (h : ∀ b ∈ bs, b < 256) :
    get_u32_le bs < 4294967296 := by
  have h0 := getD_lt_256 bs 0 h
  have h1 := getD_lt_256 bs 1 h
  have h2 := getD_lt_256 bs 2 h
  have h3 := getD_lt_256 bs 3 h
  unfold get_u32_le
  omega

/-- The little-endian 16-bit read of a byte string is below `2^16`. -/
theorem get_u16_le_lt (bs : ByteStr) (h : ∀ b ∈ bs, b < 256) :
    get_u16_le bs < 65536 := by
  have h0 := getD_lt_256 bs 0 h
  have h1 := getD_lt_256 bs 1 h
  unfold get_u16_le
  omega

/-- Behaviour of the `u32 → i32` cast: identity below `2^31`, wrap-around
above, and the result lies in the `i32` range. -/
theorem as_i32_spec (n : Nat) (h : n < 4294967296) :
    (n < 2147483648 → as_i32 n = (n : Int)) ∧
    (2147483648 ≤ n → as_i32 n = (n : Int) - 4294967296) ∧
    -2147483648 ≤ as_i32 n ∧ as_i32 n < 2147483648 := by
  unfold as_i32
  split <;> omega

/-- Behaviour of the `u16 → i16` cast. -/
theorem as_i16_spec (n : Nat) (h : n < 65536) :
    (n < 32768 → as_i16 n = (n : Int)) ∧
    (32768 ≤ n → as_i16 n = (n : Int) - 65536) ∧
    -32768 ≤ as_i16 n ∧ as_i16 n < 32768 := by
  unfold as_i16
  split <;> omega

/-! ### Claim theorems -/

/-- C2: for every lock structure, `lock_id` is the raw encoded byte
representation of the structure, and consequently two lock structures
share a `lock_id` exactly when their encoded byte representations are
equal (structural identity, not a hash). -/
theorem lock_id_raw_bytes_law (c : Codec) (a b : RGBPPLock) :
    RGBPPLock.lock_id c a = c.lockAsBytes a ∧
    (RGBPPLock.lock_id c a = RGBPPLock.lock_id c b ↔
      c.lockAsBytes a = c.lockAsBytes b) :=
  ⟨rfl, Iff.rfl⟩

/-- C5: for every unlock structure, `unlock_id` is the content digest
(`blake2b_256`) of the full encoded unlock structure — 32 bytes long
whenever the digest has 32-byte output — and byte-identical encodings map
to the same `unlock_id` (intentional dedup). -/
theorem unlock_id_digest_law (c : Codec) (x y : RGBPPUnlock)
    (h32 : ∀ b, (c.blake2b_256 b).length = 32) :
    RGBPPUnlock.unlock_id c x = c.blake2b_256 (c.unlockAsBytes x) ∧
    (RGBPPUnlock.unlock_id c x).length = 32 ∧
    (c.unlockAsBytes x = c.unlockAsBytes y →
      RGBPPUnlock.unlock_id c x = RGBPPUnlock.unlock_id c y) := by
  refine ⟨rfl, h32 _, fun h => ?_⟩
  unfold RGBPPUnlock.unlock_id
  rw [h]

/-- Witness for C5 at a concrete codec and unlock structure. -/
theorem unlock_id_digest_law_witness :
    RGBPPUnlock.unlock_id rejectAllCodec wrapUnlock =
        rejectAllCodec.blake2b_256 (rejectAllCodec.unlockAsBytes wrapUnlock) ∧
    (RGBPPUnlock.unlock_id rejectAllCodec wrapUnlock).length = 32 ∧
    (rejectAllCodec.unlockAsBytes wrapUnlock =
        rejectAllCodec.unlockAsBytes wrapUnlock →
      RGBPPUnlock.unlock_id rejectAllCodec wrapUnlock =
        RGBPPUnlock.unlock_id rejectAllCodec wrapUnlock) :=
  unlock_id_digest_law rejectAllCodec wrapUnlock wrapUnlock (fun _ => rfl)

/-- C6: every row a lock upsert adds stores the lock's embedded
`btc_txid` byte-reversed, while every row an unlock upsert adds stores
the `btc_tx` (and `btc_tx_proof`) bytes without reversal. -/
theorem stored_btc_byte_order (c : Codec) (s : Store) (l : RGBPPLock)
    (u : RGBPPUnlock) (t t' : ByteStr) :
    (∀ row ∈ (upsert_rgbpp_lock c s l t).1.locks,
        row ∈ s.locks ∨ row.btc_txid = l.btc_txid.reverse) ∧
    (∀ row ∈ (upsert_rgbpp_unlock c s u t').1.unlocks,
        row ∈ s.unlocks ∨
          (row.btc_tx = u.btc_tx ∧ row.btc_tx_proof = u.btc_tx_proof)) := by
  constructor
  · unfold upsert_rgbpp_lock
    split
    · exact fun row hr => Or.inl hr
    · intro row hr
      rcases List.mem_append.mp hr with h | h
      · exact Or.inl h
      · right
        rw [List.mem_singleton.mp h]
        rfl
  · unfold upsert_rgbpp_unlock
    split
    · exact fun row hr => Or.inl hr
    · intro row hr
      rcases List.mem_append.mp hr with h | h
      · exact Or.inl h
      · right
        rw [List.mem_singleton.mp h]
        exact ⟨rfl, rfl⟩

/-- Witness for C6: the row inserted into the empty store. -/
theorem stored_btc_byte_order_witness :
    (mkLockRow decodeAllCodec wrapLock [7] ∈ emptyStore.locks ∨
      (mkLockRow decodeAllCodec wrapLock [7]).btc_txid =
        wrapLock.btc_txid.reverse) ∧
    (mkUnlockRow decodeAllCodec wrapUnlock [7] ∈ emptyStore.unlocks ∨
      ((mkUnlockRow decodeAllCodec wrapUnlock [7]).btc_tx =
          wrapUnlock.btc_tx ∧
       (mkUnlockRow decodeAllCodec wrapUnlock [7]).btc_tx_proof =
          wrapUnlock.btc_tx_proof)) :=
  ⟨(stored_btc_byte_order decodeAllCodec emptyStore wrapLock wrapUnlock
        [7] [7]).1 (mkLockRow decodeAllCodec wrapLock [7]) (by decide),
   (stored_btc_byte_order decodeAllCodec emptyStore wrapLock wrapUnlock
        [7] [7]).2 (mkUnlockRow decodeAllCodec wrapUnlock [7]) (by decide)⟩

/-- C4 (amended): every row a lock upsert adds stores as `out_index` the
little-endian 32-bit value of the lock's `out_index` field reinterpreted
as a signed 32-bit integer (`as i32`): equal to the decoded unsigned
value exactly when it is below `2^31`, wrapped by `2^32` otherwise; the
unlock `version` is stored likewise through `as i16`. -/
theorem stored_numeric_fields (c : Codec) (s : Store) (l : RGBPPLock)
    (u : RGBPPUnlock) (t t' : ByteStr)
    (hl : ∀ b ∈ l.out_index, b < 256) (hu : ∀ b ∈ u.version, b < 256) :
    (∀ row ∈ (upsert_rgbpp_lock c s l t).1.locks, row ∈ s.locks ∨
      (row.out_index = as_i32 (get_u32_le l.out_index) ∧
       (get_u32_le l.out_index < 2147483648 →
         row.out_index = (get_u32_le l.out_index : Int)) ∧
       (2147483648 ≤ get_u32_le l.out_index →
         row.out_index = (get_u32_le l.out_index : Int) - 4294967296) ∧
       -2147483648 ≤ row.out_index ∧ row.out_index < 2147483648)) ∧
    (∀ row ∈ (upsert_rgbpp_unlock c s u t').1.unlocks, row ∈ s.unlocks ∨
      (row.version = as_i16 (get_u16_le u.version) ∧
       (get_u16_le u.version < 32768 →
         row.version = (get_u16_le u.version : Int)) ∧
       (32768 ≤ get_u16_le u.version →
         row.version = (get_u16_le u.version : Int) - 65536) ∧
       -32768 ≤ row.version ∧ row.version < 32768)) := by
  have h32 := as_i32_spec (get_u32_le l.out_index) (get_u32_le_lt l.out_index hl)
  have h16 := as_i16_spec (get_u16_le u.version) (get_u16_le_lt u.version hu)
  constructor
  · unfold upsert_rgbpp_lock
    split
    · exact fun row hr => Or.inl hr
    · intro row hr
      rcases List.mem_append.mp hr with h | h
      · exact Or.inl h
      · right
        rw [List.mem_singleton.mp h]
        exact ⟨rfl, h32.1, h32.2.1, h32.2.2.1, h32.2.2.2⟩
  · unfold upsert_rgbpp_unlock
    split
    · exact fun row hr => Or.inl hr
    · intro row hr
      rcases List.mem_append.mp hr with h | h
      · exact Or.inl h
      · right
        rw [List.mem_singleton.mp h]
        exact ⟨rfl, h16.1, h16.2.1, h16.2.2.1, h16.2.2.2⟩

/-- Witness for C4 (amended) at the rows inserted into the empty store. -/
theorem stored_numeric_fields_witness :
    (mkLockRow decodeAllCodec wrapLock [7] ∈ emptyStore.locks ∨
      ((mkLockRow decodeAllCodec wrapLock [7]).out_index =
          as_i32 (get_u32_le wrapLock.out_index) ∧
       (get_u32_le wrapLock.out_index < 2147483648 →
         (mkLockRow decodeAllCodec wrapLock [7]).out_index =
           (get_u32_le wrapLock.out_index : Int)) ∧
       (2147483648 ≤ get_u32_le wrapLock.out_index →
         (mkLockRow decodeAllCodec wrapLock [7]).out_index =
           (get_u32_le wrapLock.out_index : Int) - 4294967296) ∧
       -2147483648 ≤ (mkLockRow decodeAllCodec wrapLock [7]).out_index ∧
       (mkLockRow decodeAllCodec wrapLock [7]).out_index < 2147483648)) ∧
    (mkUnlockRow decodeAllCodec wrapUnlock [7] ∈ emptyStore.unlocks ∨
      ((mkUnlockRow decodeAllCodec wrapUnlock [7]).version =
          as_i16 (get_u16_le wrapUnlock.version) ∧
       (get_u16_le wrapUnlock.version < 32768 →
         (mkUnlockRow decodeAllCodec wrapUnlock [7]).version =
           (get_u16_le wrapUnlock.version : Int)) ∧
       (32768 ≤ get_u16_le wrapUnlock.version →
         (mkUnlockRow decodeAllCodec wrapUnlock [7]).version =
           (get_u16_le wrapUnlock.version : Int) - 65536) ∧
       -32768 ≤ (mkUnlockRow decodeAllCodec wrapUnlock [7]).version ∧
       (mkUnlockRow decodeAllCodec wrapUnlock [7]).version < 32768)) :=
  ⟨(stored_numeric_fields decodeAllCodec emptyStore wrapLock wrapUnlock
        [7] [7] (by decide) (by decide)).1
      (mkLockRow decodeAllCodec wrapLock [7]) (by decide),
   (stored_numeric_fields decodeAllCodec emptyStore wrapLock wrapUnlock
        [7] [7] (by decide) (by decide)).2
      (mkUnlockRow decodeAllCodec wrapUnlock [7]) (by decide)⟩

/-- Counterexample to C4 as stated: a lock whose `out_index` field decodes
to the unsigned value `2^31` is stored as `-2^31`, not `2^31` — the
`as i32` narrowing wraps values of the upper half of the `u32` range. -/
theorem stored_out_index_counterexample :
    ((upsert_rgbpp_lock decodeAllCodec emptyStore wrapLock [7]).1.locks.map
        LockRow.out_index) = [-2147483648] ∧
    get_u32_le wrapLock.out_index = 2147483648 ∧
    ((upsert_rgbpp_unlock decodeAllCodec emptyStore wrapUnlock [7]).1.unlocks.map
        UnlockRow.version) = [-32768] ∧
    get_u16_le wrapUnlock.version = 32768 := by
  refine ⟨rfl, rfl, rfl, rfl⟩

/-- C3: persisting a lock or unlock record twice with the identical
identifier leaves exactly one row: the second upsert returns the store
unchanged (no insert, no update — first-writer-wins even when the second
observation's `tx` hash differs), and a fresh identifier ends up with
exactly one matching row after the first upsert. -/
theorem upsert_idempotent (c : Codec) (s : Store) (a b : RGBPPLock)
    (u v : RGBPPUnlock) (t1 t2 t3 t4 : ByteStr)
    (hab : RGBPPLock.lock_id c a = RGBPPLock.lock_id c b)
    (huv : RGBPPUnlock.unlock_id c u = RGBPPUnlock.unlock_id c v) :
    (upsert_rgbpp_lock c (upsert_rgbpp_lock c s a t1).1 b t2).1 =
        (upsert_rgbpp_lock c s a t1).1 ∧
    (s.locks.countP (fun r => r.lock_id == RGBPPLock.lock_id c a) = 0 →
      (upsert_rgbpp_lock c s a t1).1.locks.countP
        (fun r => r.lock_id == RGBPPLock.lock_id c a) = 1) ∧
    (upsert_rgbpp_unlock c (upsert_rgbpp_unlock c s u t3).1 v t4).1 =
        (upsert_rgbpp_unlock c s u t3).1 ∧
    (s.unlocks.countP (fun r => r.unlock_id == RGBPPUnlock.unlock_id c u) = 0 →
      (upsert_rgbpp_unlock c s u t3).1.unlocks.countP
        (fun r => r.unlock_id == RGBPPUnlock.unlock_id c u) = 1) := by
  refine ⟨?_, ?_, ?_, ?_⟩
  · have hfind := upsert_rgbpp_lock_find c s a t1
    rw [hab] at hfind
    rw [upsert_rgbpp_lock_found c (upsert_rgbpp_lock c s a t1).1 b t2 hfind]
  · intro hcount
    have hnone : s.locks.find? (fun r => r.lock_id == RGBPPLock.lock_id c a)
        = none := by
      rw [List.find?_eq_none]
      exact List.countP_eq_zero.mp hcount
    unfold upsert_rgbpp_lock
    rw [hnone]
    simp [List.countP_append, List.countP_cons, hcount, mkLockRow]
  · have hfind := upsert_rgbpp_unlock_find c s u t3
    rw [huv] at hfind
    rw [upsert_rgbpp_unlock_found c (upsert_rgbpp_unlock c s u t3).1 v t4 hfind]
  · intro hcount
    have hnone : s.unlocks.find?
        (fun r => r.unlock_id == RGBPPUnlock.unlock_id c u) = none := by
      rw [List.find?_eq_none]
      exact List.countP_eq_zero.mp hcount
    unfold upsert_rgbpp_unlock
    rw [hnone]
    simp [List.countP_append, List.countP_cons, hcount, mkUnlockRow]

/-- Witness for C3: re-persisting the same lock and unlock against the
empty store, the second observation carrying a different `tx` hash. -/
theorem upsert_idempotent_witness :
    (upsert_rgbpp_lock decodeAllCodec
        (upsert_rgbpp_lock decodeAllCodec emptyStore wrapLock [7]).1
        wrapLock [8]).1 =
      (upsert_rgbpp_lock decodeAllCodec emptyStore wrapLock [7]).1 ∧
    (emptyStore.locks.countP
        (fun r => r.lock_id == RGBPPLock.lock_id decodeAllCodec wrapLock) = 0 →
      (upsert_rgbpp_lock decodeAllCodec emptyStore wrapLock [7]).1.locks.countP
        (fun r => r.lock_id == RGBPPLock.lock_id decodeAllCodec wrapLock) = 1) ∧
    (upsert_rgbpp_unlock decodeAllCodec
        (upsert_rgbpp_unlock decodeAllCodec emptyStore wrapUnlock [7]).1
        wrapUnlock [8]).1 =
      (upsert_rgbpp_unlock decodeAllCodec emptyStore wrapUnlock [7]).1 ∧
    (emptyStore.unlocks.countP
        (fun r => r.unlock_id ==
          RGBPPUnlock.unlock_id decodeAllCodec wrapUnlock) = 0 →
      (upsert_rgbpp_unlock decodeAllCodec emptyStore wrapUnlock
          [7]).1.unlocks.countP
        (fun r => r.unlock_id ==
          RGBPPUnlock.unlock_id decodeAllCodec wrapUnlock) = 1) :=
  upsert_idempotent decodeAllCodec emptyStore wrapLock wrapLock
    wrapUnlock wrapUnlock [7] [8] [7] [8] rfl rfl

/-- C7: a witness field that fails to decode at any stage (wrapper decode,
missing `lock` sub-field, or unlock decode) contributes zero unlock
candidates; a lock-script argument field that fails to decode contributes
zero lock candidates; and a transaction whose fields all fail to decode
produces zero persist calls and no error — its processing emits only the
resolver call and leaves the store untouched. -/
theorem malformed_data_non_interference (c : Codec) :
    (∀ (w : ByteStr) (l1 l2 : List ByteStr),
      ((c.witnessArgsFromSlice w).bind
        (fun wa => wa.lock.bind (fun lw => c.unlockFromSlice lw))) = none →
      extract_unlocks c (l1 ++ w :: l2) = extract_unlocks c (l1 ++ l2)) ∧
    (∀ (o : CellOutput) (l1 l2 : List CellOutput),
      c.lockFromSlice o.lock.args = none →
      extract_locks c (l1 ++ o :: l2) = extract_locks c (l1 ++ l2)) ∧
    (∀ (f : Fetcher) (s : Store) (t : TransactionView)
        (pre : List CellOutput),
      f t.inputs = Except.ok pre →
      (∀ w ∈ t.witnesses, ((c.witnessArgsFromSlice w).bind
        (fun wa => wa.lock.bind (fun lw => c.unlockFromSlice lw))) = none) →
      (∀ o ∈ pre, c.lockFromSlice o.lock.args = none) →
      (∀ o ∈ t.outputs, c.lockFromSlice o.lock.args = none) →
      index_rgbpp_lock c f s t = (s, [Event.resolve t.inputs], none)) := by
  refine ⟨?_, ?_, ?_⟩
  · intro w l1 l2 hnone
    unfold extract_unlocks
    cases hw : c.witnessArgsFromSlice w with
    | none => simp [List.filterMap_append, List.filterMap_cons, hw]
    | some wa =>
      rw [hw] at hnone
      simp only [Option.some_bind] at hnone
      simp [List.filterMap_append, List.filterMap_cons, hw, hnone]
  · intro o l1 l2 hnone
    unfold extract_locks
    simp [List.filterMap_append, List.filterMap_cons, hnone]
  · intro f s t pre hok hw ho1 ho2
    have hu : extract_unlocks c t.witnesses = [] := by
      unfold extract_unlocks
      rw [List.filterMap_eq_nil_iff]
      intro wa hwa
      rcases List.mem_filterMap.mp hwa with ⟨w, hwmem, hwdec⟩
      have hbind := hw w hwmem
      rw [hwdec] at hbind
      simpa using hbind
    have hl1 : extract_locks c pre = [] := by
      unfold extract_locks
      rw [List.filterMap_eq_nil_iff]
      exact ho1
    have hl2 : extract_locks c t.outputs = [] := by
      unfold extract_locks
      rw [List.filterMap_eq_nil_iff]
      exact ho2
    unfold index_rgbpp_lock
    rw [hu, hok]
    simp [upsert_unlocks, upsert_locks, hl1, hl2]

/-- Witness for C7 at concrete malformed inputs. -/
theorem malformed_data_non_interference_witness :
    extract_unlocks rejectAllCodec ([[9]] ++ [3] :: [[4]]) =
        extract_unlocks rejectAllCodec ([[9]] ++ [[4]]) ∧
    extract_locks rejectAllCodec ([⟨⟨[1]⟩⟩] ++ ⟨⟨[2]⟩⟩ :: []) =
        extract_locks rejectAllCodec ([⟨⟨[1]⟩⟩] ++ []) ∧
    index_rgbpp_lock rejectAllCodec emptyOkFetcher emptyStore plainTx =
        (emptyStore, [Event.resolve plainTx.inputs], none) :=
  ⟨(malformed_data_non_interference rejectAllCodec).1 [3] [[9]] [[4]] rfl,
   (malformed_data_non_interference rejectAllCodec).2.1 ⟨⟨[2]⟩⟩ [⟨⟨[1]⟩⟩] [] rfl,
   (malformed_data_non_interference rejectAllCodec).2.2 emptyOkFetcher
     emptyStore plainTx [] rfl (fun _ _ => rfl)
     (fun o h => absurd h (List.not_mem_nil o)) (fun _ _ => rfl)⟩

/-- C1 (amended): if the output resolver errors on transaction T, no
LockRecord derived from T is persisted, nothing from any later transaction
is processed, and the pipeline's `index()` returns that error; the
UnlockRecords extracted from T's own witnesses, however, were already
persisted before the resolver call and remain in the store. -/
theorem fail_fast_aborts_pipeline (c : Codec) (f : Fetcher) (s : Store)
    (t : TransactionView) (rest : List TransactionView) (e : String)
    (h : f t.inputs = Except.error e) :
    (index_rgbpp_lock c f s t).1.locks = s.locks ∧
    (index_rgbpp_lock c f s t).1.unlocks =
      (upsert_unlocks c t.hash s (extract_unlocks c t.witnesses)).1.unlocks ∧
    (index_rgbpp_lock c f s t).2.2 = some e ∧
    RgbppIndexer.index c f s (t :: rest) =
      ((index_rgbpp_lock c f s t).1, (index_rgbpp_lock c f s t).2.1,
        some e) := by
  have hbody : index_rgbpp_lock c f s t =
      ((upsert_unlocks c t.hash s (extract_unlocks c t.witnesses)).1,
       (upsert_unlocks c t.hash s (extract_unlocks c t.witnesses)).2 ++
         [Event.resolve t.inputs], some e) := by
    unfold index_rgbpp_lock
    rw [h]
  refine ⟨?_, ?_, ?_, ?_⟩
  · rw [hbody]
    exact upsert_unlocks_locks c t.hash _ s
  · rw [hbody]
  · rw [hbody]
  · simp only [RgbppIndexer.index]
    rw [hbody]

/-- Witness for C1 (amended) at a failing resolver and a transaction with
one decodable unlock witness. -/
theorem fail_fast_aborts_pipeline_witness :
    (index_rgbpp_lock decodeAllCodec failFetcher emptyStore
        unlockTx).1.locks = emptyStore.locks ∧
    (index_rgbpp_lock decodeAllCodec failFetcher emptyStore
        unlockTx).2.2 = some "resolver failed" :=
  ⟨(fail_fast_aborts_pipeline decodeAllCodec failFetcher emptyStore
      unlockTx [] "resolver failed" rfl).1,
   (fail_fast_aborts_pipeline decodeAllCodec failFetcher emptyStore
      unlockTx [] "resolver failed" rfl).2.2.1⟩

/-- Counterexample to C1 as stated: with a failing resolver, the pipeline
returns the error, yet an UnlockRecord derived from the failing
transaction (its `tx` column equals that transaction's hash) has been
persisted — the claim's "no UnlockRecord derived from T is persisted"
is violated because unlock persistence precedes input resolution. -/
theorem fail_fast_counterexample :
    (RgbppIndexer.index decodeAllCodec failFetcher emptyStore
        [unlockTx]).2.2 = some "resolver failed" ∧
    ((RgbppIndexer.index decodeAllCodec failFetcher emptyStore
        [unlockTx]).1.unlocks.map UnlockRow.tx) = [unlockTx.hash] :=
  ⟨rfl, rfl⟩

/-- The unlock-persisting loop never emits a resolver event. -/
theorem upsert_unlocks_countP_resolve (c : Codec) (tx : ByteStr)
    (us : List RGBPPUnlock) (s : Store) :
    (upsert_unlocks c tx s us).2.countP Event.isResolve = 0 := by
  rw [List.countP_eq_zero]
  intro e he
  rw [unlockEvent_not_resolve e (upsert_unlocks_events c tx us s e he)]
  simp

/-- The lock-persisting loop never emits a resolver event. -/
theorem upsert_locks_countP_resolve (c : Codec) (tx : ByteStr)
    (ls : List RGBPPLock) (s : Store) :
    (upsert_locks c tx s ls).2.countP Event.isResolve = 0 := by
  rw [List.countP_eq_zero]
  intro e he
  rw [lockEvent_not_resolve e (upsert_locks_events c tx ls s e he)]
  simp

/-- C8: the pipeline is strictly sequential in arrival order: for an
intake queue `l1 ++ l2` whose `l1` part succeeds, the whole event trace is
the trace of `l1` followed by the trace of `l2` run from the store `l1`
produced — every persist call of an earlier transaction completes before
any persist call of a later one begins. -/
theorem pipeline_sequential_order (c : Codec) (f : Fetcher)
    (l1 l2 : List TransactionView) (s : Store)
    (h : (RgbppIndexer.index c f s l1).2.2 = none) :
    RgbppIndexer.index c f s (l1 ++ l2) =
      ((RgbppIndexer.index c f (RgbppIndexer.index c f s l1).1 l2).1,
       (RgbppIndexer.index c f s l1).2.1 ++
         (RgbppIndexer.index c f (RgbppIndexer.index c f s l1).1 l2).2.1,
       (RgbppIndexer.index c f (RgbppIndexer.index c f s l1).1 l2).2.2) := by
  induction l1 generalizing s with
  | nil => simp [RgbppIndexer.index]
  | cons t ts ih =>
    rw [List.cons_append]
    cases hr : (index_rgbpp_lock c f s t).2.2 with
    | some e =>
      exfalso
      simp [RgbppIndexer.index, hr] at h
    | none =>
      have h' : (RgbppIndexer.index c f (index_rgbpp_lock c f s t).1 ts).2.2
          = none := by
        simpa [RgbppIndexer.index, hr] using h
      simp only [RgbppIndexer.index, hr]
      rw [ih _ h']
      simp [RgbppIndexer.index, hr, List.append_assoc]

/-- Witness for C8 at a two-transaction queue. -/
theorem pipeline_sequential_order_witness :
    (RgbppIndexer.index decodeAllCodec emptyOkFetcher emptyStore
        ([unlockTx] ++ [plainTx])).2.2 = none := by
  rw [pipeline_sequential_order decodeAllCodec emptyOkFetcher [unlockTx]
      [plainTx] emptyStore rfl]
  rfl

/-- C9: processing one transaction invokes the output resolver exactly
once — one batched call carrying all the transaction's inputs — and that
invocation comes after every unlock persist call of the transaction: the
trace is exactly the unlock-phase trace, then the resolver event, then
lock-table events only. -/
theorem resolver_once_after_unlock_persists (c : Codec) (f : Fetcher)
    (s : Store) (t : TransactionView) :
    (index_rgbpp_lock c f s t).2.1.countP Event.isResolve = 1 ∧
    ∃ evLocks,
      (index_rgbpp_lock c f s t).2.1 =
        (upsert_unlocks c t.hash s (extract_unlocks c t.witnesses)).2 ++
          Event.resolve t.inputs :: evLocks ∧
      (∀ e ∈ (upsert_unlocks c t.hash s (extract_unlocks c t.witnesses)).2,
        e.isUnlockEvent = true) ∧
      (∀ e ∈ evLocks, e.isLockEvent = true) := by
  have hu0 := upsert_unlocks_countP_resolve c t.hash
    (extract_unlocks c t.witnesses) s
  cases hf : f t.inputs with
  | error e =>
    have hbody : index_rgbpp_lock c f s t =
        ((upsert_unlocks c t.hash s (extract_unlocks c t.witnesses)).1,
         (upsert_unlocks c t.hash s (extract_unlocks c t.witnesses)).2 ++
           [Event.resolve t.inputs], some e) := by
      unfold index_rgbpp_lock
      rw [hf]
    rw [hbody]
    refine ⟨?_, [], rfl, ?_, ?_⟩
    · simp [List.countP_append, List.countP_cons, hu0, Event.isResolve]
    · exact upsert_unlocks_events c t.hash _ s
    · simp
  | ok pre =>
    have hbody : index_rgbpp_lock c f s t =
        ((upsert_locks c t.hash
            (upsert_unlocks c t.hash s (extract_unlocks c t.witnesses)).1
            (extract_locks c pre ++ extract_locks c t.outputs)).1,
         (upsert_unlocks c t.hash s (extract_unlocks c t.witnesses)).2 ++
           Event.resolve t.inputs ::
             (upsert_locks c t.hash
               (upsert_unlocks c t.hash s (extract_unlocks c t.witnesses)).1
               (extract_locks c pre ++ extract_locks c t.outputs)).2,
         none) := by
      unfold index_rgbpp_lock
      rw [hf]
    rw [hbody]
    refine ⟨?_,
      (upsert_locks c t.hash
        (upsert_unlocks c t.hash s (extract_unlocks c t.witnesses)).1
        (extract_locks c pre ++ extract_locks c t.outputs)).2,
      rfl, ?_, ?_⟩
    · have hl0 := upsert_locks_countP_resolve c t.hash
        (extract_locks c pre ++ extract_locks c t.outputs)
        (upsert_unlocks c t.hash s (extract_unlocks c t.witnesses)).1
      simp [List.countP_append, List.countP_cons, hu0, hl0, Event.isResolve]
    · exact upsert_unlocks_events c t.hash _ s
    · exact upsert_locks_events c t.hash _ _

/-- Witness for C9: the resolver is invoked exactly once even when it
fails. -/
theorem resolver_once_after_unlock_persists_witness :
    (index_rgbpp_lock decodeAllCodec failFetcher emptyStore
        plainTx).2.1.countP Event.isResolve = 1 :=
  (resolver_once_after_unlock_persists decodeAllCodec failFetcher
    emptyStore plainTx).1

/-- C10: on successful resolution, the pooled lock candidate list is the
locks decoded from the resolved input outputs concatenated with the locks
decoded from the transaction's own outputs (each sub-list in its source's
field order, `filterMap` preserving order), and the input-derived locks
are persisted before the output-derived ones: the lock phase decomposes
into the two upsert folds run in that order, with their traces
concatenated. -/
theorem pooled_lock_candidates (c : Codec) (f : Fetcher) (s : Store)
    (t : TransactionView) (pre : List CellOutput)
    (h : f t.inputs = Except.ok pre) :
    index_rgbpp_lock c f s t =
      ((upsert_locks c t.hash
          (upsert_locks c t.hash
            (upsert_unlocks c t.hash s (extract_unlocks c t.witnesses)).1
            (extract_locks c pre)).1
          (extract_locks c t.outputs)).1,
       (upsert_unlocks c t.hash s (extract_unlocks c t.witnesses)).2 ++
         Event.resolve t.inputs ::
           ((upsert_locks c t.hash
              (upsert_unlocks c t.hash s (extract_unlocks c t.witnesses)).1
              (extract_locks c pre)).2 ++
            (upsert_locks c t.hash
              (upsert_locks c t.hash
                (upsert_unlocks c t.hash s
                  (extract_unlocks c t.witnesses)).1
                (extract_locks c pre)).1
              (extract_locks c t.outputs)).2),
       none) := by
  have hbody : index_rgbpp_lock c f s t =
      ((upsert_locks c t.hash
          (upsert_unlocks c t.hash s (extract_unlocks c t.witnesses)).1
          (extract_locks c pre ++ extract_locks c t.outputs)).1,
       (upsert_unlocks c t.hash s (extract_unlocks c t.witnesses)).2 ++
         Event.resolve t.inputs ::
           (upsert_locks c t.hash
             (upsert_unlocks c t.hash s (extract_unlocks c t.witnesses)).1
             (extract_locks c pre ++ extract_locks c t.outputs)).2,
       none) := by
    unfold index_rgbpp_lock
    rw [h]
  rw [hbody, upsert_locks_append]

/-- Witness for C10 at a successfully resolving fetcher. -/
theorem pooled_lock_candidates_witness :
    (index_rgbpp_lock decodeAllCodec emptyOkFetcher emptyStore
        unlockTx).2.2 = none := by
  rw [pooled_lock_candidates decodeAllCodec emptyOkFetcher emptyStore
      unlockTx [] rfl]
